import Mathlib

/-!
Verification of the aither CFD core against its specification.

The development shallowly embeds the parts of the source that the claims
touch.  Machine doubles are modelled by rationals (exact arithmetic);
fallible code returns `Option`/`Except`; the per-cell loops of the flux and
norm routines become folds.  Physical-model internals (equation of state,
thermodynamics, turbulence closure) are external collaborators of the core
and are represented as abstract function fields of a `physics` record, as
the spec prescribes ("referenced only by contract").
-/

namespace Aither

/-- A 3-component vector (`vector3d<double>` in the source), over ℚ. -/
structure Vec3 where
  x : ℚ
  y : ℚ
  z : ℚ
  deriving DecidableEq, Repr

instance : Add Vec3 := ⟨fun a b => ⟨a.x + b.x, a.y + b.y, a.z + b.z⟩⟩

instance : Neg Vec3 := ⟨fun a => ⟨-a.x, -a.y, -a.z⟩⟩

instance : SMul ℚ Vec3 := ⟨fun q a => ⟨q * a.x, q * a.y, q * a.z⟩⟩

/-- The fixed-layout variable record (`varArray`, src/include and spec §3):
data laid out contiguously as
`[species densities …, momX, momY, momZ, energy (or pressure), turbulence …]`,
with `ns` species.  `primitive`, `conserved` and `residual` specialize this
layout; the index→role mapping is a pure function of `ns`. -/
structure varArray where
  ns : ℕ
  data : List ℚ
  deriving DecidableEq, Repr

namespace varArray

/-- `SpeciesN(ii)`: the ii-th species density entry. -/
def speciesN (a : varArray) (ii : ℕ) : ℚ := a.data.getD ii 0

/-- The species-density prefix of the record (`RhoVec()`). -/
def speciesList (a : varArray) : List ℚ := a.data.take a.ns

/-- `SpeciesSum()` / `primitive::Rho()`: total density, the sum of the
species densities. -/
def rho (a : varArray) : ℚ := a.speciesList.sum

/-- `MomentumXIndex()` entry; for a primitive this is `U()`. -/
def momentumX (a : varArray) : ℚ := a.data.getD a.ns 0

/-- `MomentumYIndex()` entry; for a primitive this is `V()`. -/
def momentumY (a : varArray) : ℚ := a.data.getD (a.ns + 1) 0

/-- `MomentumZIndex()` entry; for a primitive this is `W()`. -/
def momentumZ (a : varArray) : ℚ := a.data.getD (a.ns + 2) 0

/-- `EnergyIndex()` entry; for a primitive this is the pressure `P()`. -/
def energy (a : varArray) : ℚ := a.data.getD (a.ns + 3) 0

/-- The turbulence suffix of the record (`TurbulenceIndex()` onward). -/
def turb (a : varArray) : List ℚ := a.data.drop (a.ns + 4)

/-- `Velocity()` of a primitive record. -/
def velocity (a : varArray) : Vec3 := ⟨a.momentumX, a.momentumY, a.momentumZ⟩

/-- `MassFractions()`: each species density divided by the total. -/
def massFractions (a : varArray) : List ℚ := a.speciesList.map (· / a.rho)

end varArray

/-- Element-wise addition of records (spec §9: operator overloads on records
map element-wise); used for `consUpdate = state.ConsVars(phys) + du`. -/
instance : Add varArray := ⟨fun a b => ⟨a.ns, a.data.zipWith (· + ·) b.data⟩⟩

/-- Element-wise scalar multiple of a record (spec §9). -/
instance : SMul ℚ varArray := ⟨fun q a => ⟨a.ns, a.data.map (q * ·)⟩⟩

/-- Modelled from the spec: the physical models (equation of state,
thermodynamic model, turbulence closure) live outside src/ and are
"external collaborators, referenced only by contract" (spec §1); they are
abstracted as opaque function fields.  `pressFromEnergy` receives the full
velocity vector where the C++ passes its magnitude; any function of the
magnitude factors through the vector. -/
structure physics where
  internalEnergy : varArray → ℚ
  pressFromEnergy : List ℚ → ℚ → Vec3 → ℚ
  limitTurb : List ℚ → List ℚ

/-- `PrimToCons` (src/include/primitive.hpp, lines 182-200): species copied,
momenta are `rho * velocity`, energy entry is `rho * Energy(phys)`,
turbulence entries are `rho * turb`. -/
def PrimToCons (state : varArray) (phys : physics) : varArray :=
  ⟨state.ns,
   state.speciesList ++
     [state.rho * state.momentumX, state.rho * state.momentumY,
      state.rho * state.momentumZ, state.rho * phys.internalEnergy state] ++
     state.turb.map (fun t => state.rho * t)⟩

/-- The primitive-from-conserved constructor
(src/include/primitive.hpp, lines 151-177): species copied, velocity is
momentum over total density, pressure from the equation of state applied to
the species densities, specific energy and velocity, turbulence entries
divided by density and then adjusted by the turbulence model
(`LimitTurb`). -/
def primitiveFromConserved (cons : varArray) (phys : physics) : varArray :=
  let rho := cons.rho
  let u := cons.momentumX / rho
  let v := cons.momentumY / rho
  let w := cons.momentumZ / rho
  let e := cons.energy / rho
  let p := phys.pressFromEnergy cons.speciesList e ⟨u, v, w⟩
  ⟨cons.ns,
   cons.speciesList ++ [u, v, w, p] ++ phys.limitTurb (cons.turb.map (· / rho))⟩

/-- The intermediate record `consUpdate = state.ConsVars(phys) + du` of
`UpdatePrimWithCons` (src/include/primitive.hpp, line 215). -/
def consUpdateOf (state : varArray) (phys : physics) (du : List ℚ) :
    varArray :=
  ⟨state.ns, (PrimToCons state phys).data.zipWith (· + ·) du⟩

/-- `UpdatePrimWithCons` (src/include/primitive.hpp, lines 205-231):
convert the primitive to conserved variables, add the update `du`,
clamp the mass fractions of the result to be non-negative, renormalize
them, scale back by the updated mixture density, and construct the new
primitive from the adjusted conserved record. -/
def UpdatePrimWithCons (state : varArray) (phys : physics) (du : List ℚ) :
    varArray :=
  let consUpdate := consUpdateOf state phys du
  let rho := consUpdate.rho
  let mf := consUpdate.massFractions.map (fun frac => max frac 0)
  let total := mf.sum
  let mfn := mf.map (· / total)
  let adjusted : varArray :=
    ⟨state.ns, mfn.map (fun frac => rho * frac) ++ consUpdate.data.drop state.ns⟩
  primitiveFromConserved adjusted phys

/-! ### Inter-block geometry exchange (`procBlock::PutGeomSlice`) -/

/-- A block surface is a lower-side surface when its surface id (1..6) is
odd (src/src/procBlock.cpp line 2471: `surfType % 2 == 0` is an upper
surface, line 6245: `isLower = surfType % 2 == 1`). -/
def isLowerSurface (b : ℤ) : Bool := b % 2 == 1

/-- The two surfaces of a connection form a lower-upper pairing when
exactly one of them is a lower-side surface. -/
def isLowerUpperPairing (bFirst bSecond : ℤ) : Bool :=
  isLowerSurface bFirst != isLowerSurface bSecond

/-- The sign factor applied to exchanged direction-3 (patch-normal) face
areas in `procBlock::PutGeomSlice`
(src/src/procBlock.cpp lines 3196-3197): `-1` when the two surface ids of
the connection have even sum, `1` otherwise. -/
def putGeomSliceAFac3 (bFirst bSecond : ℤ) : ℚ :=
  if (bFirst + bSecond) % 2 == 0 then -1 else 1

/-- The direction-3 face-area vector stored into the receiving block for a
given slice face-area vector (src/src/procBlock.cpp line 3295:
`fAreaI_(indB...) = aFac3 * slice.FAreaI(indS...)`, and likewise for the
j-j and k-k branches). -/
def putGeomSliceDir3FaceArea (bFirst bSecond : ℤ) (sliceArea : Vec3) : Vec3 :=
  putGeomSliceAFac3 bFirst bSecond • sliceArea

/-! ### Residual norms (`procBlock::UpdateBlock`) -/

/-- Modelled from the spec: the `resid` record (residual.hpp is not under
src/) holds the running L-infinity residual value together with its
(block, i, j, k, equation) location; `Linf()` returns the value and
`UpdateMax` overwrites the record (spec §4.4). -/
structure resid where
  val : ℚ
  blk : ℤ
  i : ℤ
  j : ℤ
  k : ℤ
  eqn : ℤ
  deriving DecidableEq, Repr

/-- `resid::Linf()`. -/
def resid.Linf (r : resid) : ℚ := r.val

/-- `resid::UpdateMax`. -/
def resid.UpdateMax (_ : resid) (v : ℚ) (blk i j k eqn : ℤ) : resid :=
  ⟨v, blk, i, j, k, eqn⟩

/-- Modelled from the spec: the `procBlock::Residual(ii, jj, kk, ll)`
accessor (procBlock.hpp is not under src/) — the spec (§4.4) compares
"any |R_k|" against the current Linf, so the accessor is modelled as the
absolute value of the ll-th residual component. -/
def blockResidualComp (r : List ℚ) (ll : ℕ) : ℚ := |r.getD ll 0|

/-- One step of the L-infinity scan in `procBlock::UpdateBlock`
(src/src/procBlock.cpp lines 862-867): replace the record whenever the
residual component exceeds the current Linf value. -/
def linfStep (r : List ℚ) (blk i j k : ℤ) (cur : resid) (ll : ℕ) : resid :=
  if blockResidualComp r ll > cur.Linf then
    cur.UpdateMax (blockResidualComp r ll) blk i j k ((ll : ℤ) + 1)
  else cur

/-- The per-cell norm accumulation of `procBlock::UpdateBlock`
(src/src/procBlock.cpp lines 856-867): `l2 += R * R` element-wise, then
scan all equations updating the L-infinity record. -/
def updateCellNorms (r : List ℚ) (blk i j k : ℤ) (l2 : List ℚ)
    (linf : resid) : List ℚ × resid :=
  (l2.zipWith (fun a x => a + x * x) r,
   (List.range r.length).foldl (linfStep r blk i j k) linf)

/-! ### Inviscid flux residual contributions (`procBlock::CalcInvFluxI`) -/

/-- The residual contribution of the face at index `ii` to the cell at
index `c`, in a one-dimensional line of the i-family
(src/src/procBlock.cpp lines 444-463): add `F·A` to the left cell `ii - 1`
except at the lower boundary face (`ii > PhysStartI`), subtract it from
the right cell `ii` except at the upper boundary face
(`ii < PhysEndI - 1`). -/
def invFluxContrib (flux area : ℤ → ℚ) (s e ii c : ℤ) : ℚ :=
  (if s < ii ∧ c = ii - 1 then flux ii * area ii else 0) +
    (if ii < e - 1 ∧ c = ii then -(flux ii * area ii) else 0)

/-- Processing of one physical face in `procBlock::CalcInvFluxI`. -/
def invFluxFaceUpdate (flux area : ℤ → ℚ) (s e : ℤ) (res : ℤ → ℚ)
    (ii : ℤ) : ℤ → ℚ :=
  fun c => res c + invFluxContrib flux area s e ii c

/-- The physical face indices `[s, e)` of a line of faces. -/
def faceList (s e : ℤ) : List ℤ :=
  (List.range (e - s).toNat).map (fun n : ℕ => s + (n : ℤ))

/-- The i-face loop of `procBlock::CalcInvFluxI` restricted to one line of
cells (fixed j, k): fold the per-face residual update over all physical
faces.  `flux ii` is the Riemann flux at face `ii` (a function of the
reconstructed states, which the loop does not modify) and `area ii` the
face-area magnitude. -/
def calcInvFluxLine (flux area : ℤ → ℚ) (s e : ℤ) (res : ℤ → ℚ) : ℤ → ℚ :=
  (faceList s e).foldl (invFluxFaceUpdate flux area s e) res

/-! ### Time step (`procBlock::CalcBlockTimeStep`) -/

/-- `uncoupledScalar` (src/include/uncoupledScalar.hpp): flow and
turbulence variables kept separately, e.g. the two spectral radii. -/
structure uncoupledScalar where
  flowVar : ℚ
  turbVar : ℚ
  deriving DecidableEq, Repr

/-- `uncoupledScalar::Max()`. -/
def uncoupledScalar.Max (s : uncoupledScalar) : ℚ := max s.flowVar s.turbVar

/-- `procBlock::CalcCellDt` (src/src/procBlock.cpp lines 782-791):
`dt = cfl * (V / specRadius.Max())`. -/
def calcCellDt (vol : ℚ) (specRadius : uncoupledScalar) (cfl : ℚ) : ℚ :=
  cfl * (vol / specRadius.Max)

/-- The per-cell body of `procBlock::CalcBlockTimeStep`
(src/src/procBlock.cpp lines 798-820): global time step when `Dt > 0`,
local CFL-based step when `CFL > 0`, otherwise a fatal error
(`exit(EXIT_FAILURE)`, modelled as `none`). -/
def calcBlockTimeStepCell (inpDt inpCFL inpARef inpLRef : ℚ) (vol : ℚ)
    (specRadius : uncoupledScalar) : Option ℚ :=
  if inpDt > 0 then some (inpDt * inpARef / inpLRef)
  else if inpCFL > 0 then some (calcCellDt vol specRadius inpCFL)
  else none

/-! ### Ghost-cell protocol (`procBlock::AssignInviscidGhostCells*`) -/

/-- A BC name is a wall type when it is `slipWall` or `viscousWall`
(spec §4.3, edge extension). -/
def isWallBC (bc : String) : Bool := bc == "slipWall" || bc == "viscousWall"

/-- The BC-name normalization of the inviscid ghost-cell passes
(src/src/procBlock.cpp lines 2492-2493 and 2667-2671): a `viscousWall`
surface is treated with the `slipWall` rule; every other name passes
through. -/
def inviscidGhostBCName (bc : String) : String :=
  if bc == "viscousWall" then "slipWall" else bc

/-- The arguments of one `GetGhostState` call (the per-state BC dispatcher;
its internals are BC-variant physics outside the scope of these claims,
so the ghost-state function itself stays abstract). -/
structure ghostCallArgs where
  st : varArray
  bc : String
  fArea : Vec3
  wDist : ℚ
  surfType : ℤ
  tag : ℤ
  layer : ℤ

/-- The per-surface ghost computation of
`procBlock::AssignInviscidGhostCells` (src/src/procBlock.cpp lines
2490-2525), abstracted over the `GetGhostStates` call `gs`: the BC name is
normalized (`viscousWall` → `slipWall`), and the boundary-state slice is
the reflected interior slice exactly when the normalized name is
`slipWall` (line 2518-2519). -/
def assignInviscidGhostSurface (gs : String → Bool → ℤ → varArray)
    (bcName : String) (layer : ℤ) : varArray :=
  let bc := inviscidGhostBCName bcName
  gs bc (bc == "slipWall") layer

/-- The per-cell edge assignment of
`procBlock::AssignInviscidGhostCellsEdge` (src/src/procBlock.cpp lines
2666-2708), abstracted over the `GetGhostState` call `gs`.
`stP2G3` is the state at `(pCellD2, gCellD3)` (the regular ghost on the
direction-2 side), `stG2P3` the state at `(gCellD2, pCellD3)` (the
direction-3 side); `fArea2`/`fArea3` the unit face areas of the two
surfaces forming the edge. -/
def edgeAssignState (gs : ghostCallArgs → varArray)
    (bcSurf2 bcSurf3 : String) (stP2G3 stG2P3 : varArray)
    (fArea2 fArea3 : Vec3) (wDist2 wDist3 : ℚ) (surf2 surf3 : ℤ)
    (tag2 tag3 : ℤ) (layer2 layer3 : ℤ) : varArray :=
  let bc2 := inviscidGhostBCName bcSurf2
  let bc3 := inviscidGhostBCName bcSurf3
  if bc2 == "slipWall" && bc3 != "slipWall" then
    gs ⟨stP2G3, bc2, fArea2, wDist2, surf2, tag2, layer2⟩
  else if bc2 != "slipWall" && bc3 == "slipWall" then
    gs ⟨stG2P3, bc3, fArea3, wDist3, surf3, tag3, layer3⟩
  else if layer2 == layer3 then
    (1 / 2 : ℚ) • (stP2G3 + stG2P3)
  else if layer2 > layer3 then stG2P3
  else stP2G3

/-- The passes performed by `procBlock::CalcResidualNoSource`
(src/src/procBlock.cpp lines 6111-6147), in order. -/
inductive residPass where
  | resetResidWS
  | resetGradients
  | resetTurbVars
  | calcInvFluxI
  | calcInvFluxJ
  | calcInvFluxK
  | assignViscousGhostCells
  | updateAuxillaryVariables
  | calcViscFluxI
  | calcViscFluxJ
  | calcViscFluxK
  | calcGradsI
  | calcGradsJ
  | calcGradsK
  deriving DecidableEq, Repr

/-- The sequence of passes run by `procBlock::CalcResidualNoSource`
(src/src/procBlock.cpp lines 6111-6147): reset, inviscid fluxes, then the
viscous branch (ghost reassignment, auxiliary update, viscous fluxes) when
the simulation is viscous, else the inviscid branch (auxiliary update,
gradients). -/
def calcResidualNoSourcePasses (isViscous isTurbulent : Bool) :
    List residPass :=
  [residPass.resetResidWS, residPass.resetGradients] ++
    (if isTurbulent then [residPass.resetTurbVars] else []) ++
    [residPass.calcInvFluxI, residPass.calcInvFluxJ, residPass.calcInvFluxK] ++
    (if isViscous then
      [residPass.assignViscousGhostCells, residPass.updateAuxillaryVariables,
       residPass.calcViscFluxI, residPass.calcViscFluxJ,
       residPass.calcViscFluxK]
    else
      [residPass.updateAuxillaryVariables, residPass.calcGradsI,
       residPass.calcGradsJ, residPass.calcGradsK])

/-! ### Reconstruction positivity check (`procBlock::CalcInvFluxI`) -/

/-- Modelled from the spec: `MSG_ASSERT` (macros.hpp is not under src/) —
the spec (§4.2, §7) says the implementation MUST verify the reconstructed
intensives and fail fatally (`ReconstructionFailure`) otherwise; modelled
as a fatal check returning `Except`. -/
def msgAssert (cond : Bool) (msg : String) : Except String Unit :=
  if cond then Except.ok () else Except.error msg

/-- The post-reconstruction verification of `procBlock::CalcInvFluxI`
(src/src/procBlock.cpp lines 434-437): both reconstructed interface states
must have strictly positive density and pressure. -/
def checkReconstruction (faceStateLower faceStateUpper : varArray) :
    Except String Unit := do
  msgAssert (decide (faceStateLower.rho > 0)) "nonphysical density"
  msgAssert (decide (faceStateLower.energy > 0)) "nonphysical pressure"
  msgAssert (decide (faceStateUpper.rho > 0)) "nonphysical density"
  msgAssert (decide (faceStateUpper.energy > 0)) "nonphysical pressure"

/-! ### Restart contract (`WriteRestart` / `ReadRestart`) -/

/-- The restart variable list built by `WriteRestart`
(src/src/output.cpp lines 640-649): the five flow variables, `tke` and
`sdr` when RANS, and one mass-fraction variable per species. -/
def restartVarsList (isRANS : Bool) (speciesNames : List String) :
    List String :=
  ["density", "vel_x", "vel_y", "vel_z", "pressure"] ++
    (if isRANS then ["tke", "sdr"] else []) ++
    speciesNames.map (fun s => "mf_" ++ s)

/-- Modelled from the spec: `input::NumEquations()` (input.hpp is not under
src/) — spec §3 invariant (b): the equation count equals
`numSpecies + 4 + (2 if RANS else 0)`. -/
def numEquations (numSpecies : ℕ) (isRANS : Bool) : ℕ :=
  numSpecies + 4 + (if isRANS then 2 else 0)

/-- The per-block `numVars` count written by `WriteRestart`
(src/src/output.cpp line 651): the length of the restart variable list. -/
def writeRestartNumVars (isRANS : Bool) (speciesNames : List String) : ℕ :=
  (restartVarsList isRANS speciesNames).length

/-- The per-block dimension record of a restart file
(src/src/output.cpp lines 827-832). -/
structure restartBlockDim where
  ni : ℤ
  nj : ℤ
  nk : ℤ
  numVars : ℤ
  deriving DecidableEq, Repr

/-- The grid-match validation of `ReadRestart` on the parsed restart
header (src/src/output.cpp lines 815-840): fatal when the block count
differs from the current grid, or when any block's dimensions differ from
the grid, or when its `numVars - 1` differs from the equation count. -/
def readRestartCheck (numBlks : ℤ) (dims : List restartBlockDim)
    (gridSizes : List (ℤ × ℤ × ℤ)) (numEqns : ℤ) : Except String Unit :=
  if numBlks != (gridSizes.length : ℤ) then
    Except.error "Number of blocks in restart file does not match grid"
  else if (dims.zip gridSizes).any (fun dg =>
      dg.1.ni != dg.2.1 || dg.1.nj != dg.2.2.1 || dg.1.nk != dg.2.2.2 ||
        dg.1.numVars - 1 != numEqns) then
    Except.error "Block size does not match grid, or number of variables in block does not match number of equations"
  else Except.ok ()

/-! ## Theorems -/

/-- Unfolding lemma for the scalar multiple on `Vec3`. -/
theorem vec3_smul_entries (q : ℚ) (a : Vec3) :
    q • a = ⟨q * a.x, q * a.y, q * a.z⟩ := rfl

/-- The sign factor is `-1` exactly when the two surface ids have even
sum. -/
theorem putGeomSliceAFac3_eq_neg_one (bF bS : ℤ) :
    putGeomSliceAFac3 bF bS = -1 ↔ (bF + bS) % 2 = 0 := by
  unfold putGeomSliceAFac3
  split_ifs with hc
  · simp only [beq_iff_eq] at hc
    exact iff_of_true rfl hc
  · simp only [beq_iff_eq] at hc
    exact iff_of_false (by norm_num) hc

/-- The sign factor is `1` exactly when the two surface ids have odd
sum. -/
theorem putGeomSliceAFac3_eq_one (bF bS : ℤ) :
    putGeomSliceAFac3 bF bS = 1 ↔ (bF + bS) % 2 ≠ 0 := by
  unfold putGeomSliceAFac3
  split_ifs with hc
  · simp only [beq_iff_eq] at hc
    exact iff_of_false (by norm_num) (by simpa using hc)
  · simp only [beq_iff_eq] at hc
    exact iff_of_true rfl hc

/-- A lower-upper pairing is the same as an odd surface-id sum. -/
theorem isLowerUpperPairing_iff (bF bS : ℤ) :
    isLowerUpperPairing bF bS = true ↔ (bF + bS) % 2 ≠ 0 := by
  unfold isLowerUpperPairing isLowerSurface
  rcases Int.emod_two_eq bF with h1 | h1 <;>
    rcases Int.emod_two_eq bS with h2 | h2 <;>
      simp [h1, h2] <;> omega

/-- Claim C1, as stated, is false on the code: the connection pairing
i-lower (surface 1) with i-upper (surface 2) is a lower-upper pairing, yet
`PutGeomSlice` stores the direction-3 face-area vector of the slice
unflipped (`aFac3 = 1`), not negated as the claim requires. -/
theorem putGeomSlice_claimC1_counterexample :
    isLowerUpperPairing 1 2 = true ∧
    putGeomSliceDir3FaceArea 1 2 ⟨1, 2, 3⟩ = ⟨1, 2, 3⟩ ∧
    putGeomSliceDir3FaceArea 1 2 ⟨1, 2, 3⟩ ≠ ⟨-1, -2, -3⟩ := by
  have hfac : putGeomSliceAFac3 1 2 = 1 :=
    (putGeomSliceAFac3_eq_one 1 2).mpr (by decide)
  refine ⟨by decide, ?_, ?_⟩
  · norm_num [putGeomSliceDir3FaceArea, hfac, vec3_smul_entries]
  · norm_num [putGeomSliceDir3FaceArea, hfac, vec3_smul_entries]

/-- Claim C1 (amended): in `PutGeomSlice` the exchanged direction-3
face-area vectors are flipped in sign exactly for lower-lower or
upper-upper pairings of the two surfaces, and are not flipped for
lower-upper pairings; the stored vector is the sign factor times the
slice's vector. -/
theorem putGeomSlice_dir3_areaFlip (bF bS : ℤ)
    (_hF1 : 1 ≤ bF) (_hF6 : bF ≤ 6) (_hS1 : 1 ≤ bS) (_hS6 : bS ≤ 6)
    (a : Vec3) :
    (putGeomSliceAFac3 bF bS = -1 ↔ isLowerUpperPairing bF bS = false) ∧
    (putGeomSliceAFac3 bF bS = 1 ↔ isLowerUpperPairing bF bS = true) ∧
    putGeomSliceDir3FaceArea bF bS a = putGeomSliceAFac3 bF bS • a := by
  refine ⟨?_, ?_, rfl⟩
  · rw [putGeomSliceAFac3_eq_neg_one, ← Bool.not_eq_true,
      isLowerUpperPairing_iff]
    omega
  · rw [putGeomSliceAFac3_eq_one, isLowerUpperPairing_iff]

/-- Witness for `putGeomSlice_dir3_areaFlip` at surfaces 1 and 3 (a
lower-lower pairing, hence flipped). -/
theorem putGeomSlice_dir3_areaFlip_witness :
    (putGeomSliceAFac3 1 3 = -1 ↔ isLowerUpperPairing 1 3 = false) ∧
    (putGeomSliceAFac3 1 3 = 1 ↔ isLowerUpperPairing 1 3 = true) ∧
    putGeomSliceDir3FaceArea 1 3 ⟨1, 0, 0⟩ = putGeomSliceAFac3 1 3 • ⟨1, 0, 0⟩ :=
  putGeomSlice_dir3_areaFlip 1 3 (by decide) (by decide) (by decide) (by decide)
    ⟨1, 0, 0⟩

/-- Claim C5: `CalcBlockTimeStep` sets, for every physical cell, the
global step `Dt * aRef / lRef` when the input `Dt` is positive, and
otherwise, when `CFL` is positive, the local step
`CFL * V / max(spectral radii)` with the max over the cell's flow and
turbulence spectral radii. -/
theorem calcBlockTimeStep_spec (dt cfl aRef lRef vol : ℚ)
    (sr : uncoupledScalar) :
    (0 < dt →
      calcBlockTimeStepCell dt cfl aRef lRef vol sr = some (dt * aRef / lRef)) ∧
    (dt ≤ 0 → 0 < cfl →
      calcBlockTimeStepCell dt cfl aRef lRef vol sr =
        some (cfl * vol / max sr.flowVar sr.turbVar)) := by
  constructor
  · intro h
    simp [calcBlockTimeStepCell, h]
  · intro hdt hcfl
    have h1 : ¬ dt > 0 := not_lt.mpr hdt
    simp [calcBlockTimeStepCell, h1, hcfl, calcCellDt, uncoupledScalar.Max,
      mul_div_assoc]

/-- Witness for `calcBlockTimeStep_spec`: both branches at concrete
inputs. -/
theorem calcBlockTimeStep_spec_witness :
    calcBlockTimeStepCell 2 1 3 4 5 ⟨1, 6⟩ = some (2 * 3 / 4) ∧
    calcBlockTimeStepCell (-1) 2 3 4 5 ⟨1, 6⟩ = some (2 * 5 / max 1 6) :=
  ⟨(calcBlockTimeStep_spec 2 1 3 4 5 ⟨1, 6⟩).1 (by norm_num),
   (calcBlockTimeStep_spec (-1) 2 3 4 5 ⟨1, 6⟩).2 (by norm_num) (by norm_num)⟩

/-- Claim C8: the flux routines verify that the reconstructed interface
density and pressure are strictly positive on both sides; under that
precondition the fatal failure branch is unreachable (the check
succeeds). -/
theorem checkReconstruction_ok (lo up : varArray)
    (h1 : 0 < lo.rho) (h2 : 0 < lo.energy)
    (h3 : 0 < up.rho) (h4 : 0 < up.energy) :
    checkReconstruction lo up = Except.ok () := by
  simp only [checkReconstruction, msgAssert, decide_eq_true h1,
    decide_eq_true h2, decide_eq_true h3, decide_eq_true h4, if_true]
  rfl

/-- Witness for `checkReconstruction_ok` at a concrete positive state. -/
theorem checkReconstruction_ok_witness :
    checkReconstruction ⟨1, [1, 0, 0, 0, 5]⟩ ⟨1, [2, 1, 1, 1, 7]⟩ =
      Except.ok () :=
  checkReconstruction_ok ⟨1, [1, 0, 0, 0, 5]⟩ ⟨1, [2, 1, 1, 1, 7]⟩
    (by norm_num [varArray.rho, varArray.speciesList])
    (by norm_num [varArray.energy])
    (by norm_num [varArray.rho, varArray.speciesList])
    (by norm_num [varArray.energy])

/-- Claim C10: a `viscousWall` surface is handled by the inviscid
ghost-cell passes (surface and edge) with the `slipWall` rule for every
ghost layer, and the viscous ghost-cell pass that applies the true
`viscousWall` state runs in `CalcResidualNoSource` exactly when the
simulation is viscous. -/
theorem viscousWall_inviscid_ghost_spec :
    (∀ gs layer, assignInviscidGhostSurface gs "viscousWall" layer =
      assignInviscidGhostSurface gs "slipWall" layer) ∧
    (∀ gs bc3 stA stB fa2 fa3 w2 w3 s2 s3 t2 t3 l2 l3,
      edgeAssignState gs "viscousWall" bc3 stA stB fa2 fa3 w2 w3 s2 s3 t2 t3
          l2 l3 =
        edgeAssignState gs "slipWall" bc3 stA stB fa2 fa3 w2 w3 s2 s3 t2 t3
          l2 l3) ∧
    (∀ gs bc2 stA stB fa2 fa3 w2 w3 s2 s3 t2 t3 l2 l3,
      edgeAssignState gs bc2 "viscousWall" stA stB fa2 fa3 w2 w3 s2 s3 t2 t3
          l2 l3 =
        edgeAssignState gs bc2 "slipWall" stA stB fa2 fa3 w2 w3 s2 s3 t2 t3
          l2 l3) ∧
    (∀ isViscous isTurbulent,
      residPass.assignViscousGhostCells ∈
          calcResidualNoSourcePasses isViscous isTurbulent ↔
        isViscous = true) := by
  have hv : inviscidGhostBCName "viscousWall" = "slipWall" := by decide
  have hs : inviscidGhostBCName "slipWall" = "slipWall" := by decide
  refine ⟨fun gs layer => ?_, fun gs bc3 stA stB fa2 fa3 w2 w3 s2 s3 t2 t3
      l2 l3 => ?_,
    fun gs bc2 stA stB fa2 fa3 w2 w3 s2 s3 t2 t3 l2 l3 => ?_,
    fun iv it => ?_⟩
  · simp only [assignInviscidGhostSurface, hv, hs]
  · simp only [edgeAssignState, hv, hs]
  · simp only [edgeAssignState, hv, hs]
  · cases iv <;> cases it <;> decide

/-- Claim C9: the restart writer records `numVars = numEquations + 1`
variables per block, and the reader's grid-match validation succeeds
exactly when the block count matches the grid and every block's
dimensions match with `numVars - 1` equal to the equation count. -/
theorem restart_numVars_and_readCheck :
    (∀ isRANS speciesNames,
      writeRestartNumVars isRANS speciesNames =
        numEquations speciesNames.length isRANS + 1) ∧
    (∀ (numBlks : ℤ) (dims : List restartBlockDim)
        (gridSizes : List (ℤ × ℤ × ℤ)) (numEqns : ℤ),
      dims.length = gridSizes.length →
        (readRestartCheck numBlks dims gridSizes numEqns = Except.ok () ↔
          numBlks = (gridSizes.length : ℤ) ∧
            ∀ dg ∈ dims.zip gridSizes,
              dg.1.ni = dg.2.1 ∧ dg.1.nj = dg.2.2.1 ∧
                dg.1.nk = dg.2.2.2 ∧ dg.1.numVars - 1 = numEqns)) := by
  constructor
  · intro isRANS speciesNames
    cases isRANS <;>
      simp [writeRestartNumVars, restartVarsList, numEquations]
  · intro numBlks dims gridSizes numEqns _
    unfold readRestartCheck
    by_cases hb : numBlks = (gridSizes.length : ℤ)
    · have hbne : (numBlks != (gridSizes.length : ℤ)) = false := by
        simp [hb]
      simp only [hbne, Bool.false_eq_true, if_false]
      by_cases ha : (dims.zip gridSizes).any (fun dg =>
          dg.1.ni != dg.2.1 || dg.1.nj != dg.2.2.1 || dg.1.nk != dg.2.2.2 ||
            dg.1.numVars - 1 != numEqns) = true
      · rw [if_pos ha]
        rw [List.any_eq_true] at ha
        obtain ⟨dg, hmem, hdg⟩ := ha
        simp only [Bool.or_eq_true, bne_iff_ne] at hdg
        constructor
        · intro h; exact Except.noConfusion h
        · rintro ⟨-, hall⟩
          obtain ⟨e1, e2, e3, e4⟩ := hall dg hmem
          rcases hdg with ((h | h) | h) | h
          exacts [absurd e1 h, absurd e2 h, absurd e3 h, absurd e4 h]
      · rw [if_neg ha]
        constructor
        · intro _
          refine ⟨hb, fun dg hmem => ?_⟩
          have hnp : ¬((fun dg : restartBlockDim × ℤ × ℤ × ℤ =>
              dg.1.ni != dg.2.1 || dg.1.nj != dg.2.2.1 ||
                dg.1.nk != dg.2.2.2 || dg.1.numVars - 1 != numEqns) dg
              = true) := fun hp => ha (List.any_eq_true.mpr ⟨dg, hmem, hp⟩)
          simp only [Bool.or_eq_true, bne_iff_ne, not_or, not_not] at hnp
          exact ⟨hnp.1.1.1, hnp.1.1.2, hnp.1.2, hnp.2⟩
        · intro _; rfl
    · have hbne : (numBlks != (gridSizes.length : ℤ)) = true := by
        simpa [bne_iff_ne] using hb
      rw [if_pos hbne]
      constructor
      · intro h; exact Except.noConfusion h
      · rintro ⟨h, -⟩; exact absurd h hb

/-- Witness for `restart_numVars_and_readCheck`: a RANS two-species header
and a matching one-block restart file. -/
theorem restart_numVars_and_readCheck_witness :
    (writeRestartNumVars true ["O2", "N2"] = numEquations 2 true + 1) ∧
    (readRestartCheck 1 [⟨4, 5, 6, 9⟩] [(4, 5, 6)] 8 = Except.ok () ↔
      (1 : ℤ) = ([((4 : ℤ), (5 : ℤ), (6 : ℤ))].length : ℤ) ∧
        ∀ dg ∈ ([⟨4, 5, 6, 9⟩] : List restartBlockDim).zip
            [((4 : ℤ), (5 : ℤ), (6 : ℤ))],
          dg.1.ni = dg.2.1 ∧ dg.1.nj = dg.2.2.1 ∧ dg.1.nk = dg.2.2.2 ∧
            dg.1.numVars - 1 = 8) :=
  ⟨restart_numVars_and_readCheck.1 true ["O2", "N2"],
   restart_numVars_and_readCheck.2 1 [⟨4, 5, 6, 9⟩] [(4, 5, 6)] 8 (by decide)⟩

/-- A wall-type BC name is either `slipWall` or `viscousWall`. -/
theorem isWallBC_true_iff (bc : String) :
    isWallBC bc = true ↔ bc = "slipWall" ∨ bc = "viscousWall" := by
  simp [isWallBC]

/-- The inviscid normalization sends every wall-type name to
`slipWall`. -/
theorem inviscidGhostBCName_of_wall (bc : String) (h : isWallBC bc = true) :
    inviscidGhostBCName bc = "slipWall" := by
  rcases (isWallBC_true_iff bc).mp h with h | h <;>
    simp [inviscidGhostBCName, h]

/-- The inviscid normalization fixes every non-wall name, and such a name
is not `slipWall`. -/
theorem inviscidGhostBCName_of_nonwall (bc : String)
    (h : isWallBC bc = false) :
    inviscidGhostBCName bc = bc ∧ bc ≠ "slipWall" := by
  have h2 : ¬(bc = "slipWall" ∨ bc = "viscousWall") := by
    intro hc
    rw [← isWallBC_true_iff] at hc
    rw [h] at hc
    exact Bool.false_ne_true hc
  push_neg at h2
  exact ⟨by simp [inviscidGhostBCName, h2.2], h2.1⟩

/-- When side 2 of an edge is a wall and side 3 is not, the edge ghost is
the wall ghost state obtained from side 2. -/
theorem edgeAssignState_wall2 (gs : ghostCallArgs → varArray)
    (bc2 bc3 : String) (stP2G3 stG2P3 : varArray) (fa2 fa3 : Vec3)
    (w2 w3 : ℚ) (s2 s3 t2 t3 l2 l3 : ℤ)
    (h2 : isWallBC bc2 = true) (h3 : isWallBC bc3 = false) :
    edgeAssignState gs bc2 bc3 stP2G3 stG2P3 fa2 fa3 w2 w3 s2 s3 t2 t3
        l2 l3 = gs ⟨stP2G3, "slipWall", fa2, w2, s2, t2, l2⟩ := by
  obtain ⟨hn3, hne3⟩ := inviscidGhostBCName_of_nonwall bc3 h3
  simp [edgeAssignState, inviscidGhostBCName_of_wall bc2 h2, hn3, hne3]

/-- When side 3 of an edge is a wall and side 2 is not, the edge ghost is
the wall ghost state obtained from side 3. -/
theorem edgeAssignState_wall3 (gs : ghostCallArgs → varArray)
    (bc2 bc3 : String) (stP2G3 stG2P3 : varArray) (fa2 fa3 : Vec3)
    (w2 w3 : ℚ) (s2 s3 t2 t3 l2 l3 : ℤ)
    (h2 : isWallBC bc2 = false) (h3 : isWallBC bc3 = true) :
    edgeAssignState gs bc2 bc3 stP2G3 stG2P3 fa2 fa3 w2 w3 s2 s3 t2 t3
        l2 l3 = gs ⟨stG2P3, "slipWall", fa3, w3, s3, t3, l3⟩ := by
  obtain ⟨hn2, hne2⟩ := inviscidGhostBCName_of_nonwall bc2 h2
  simp [edgeAssignState, inviscidGhostBCName_of_wall bc3 h3, hn2, hne2]

/-- Claim C6: for a block edge formed by surfaces with BCs `bc2` and `bc3`
of which exactly one is a wall type (`slipWall` or `viscousWall`), the
edge ghost cell is the wall-BC ghost state computed from the wall side
alone — using the wall side's face normal, wall distance, surface type,
tag and layer — and is independent of the other side's BC name. -/
theorem edgeGhost_singleWall_extension (gs : ghostCallArgs → varArray)
    (bc2 bc3 : String) (stP2G3 stG2P3 : varArray) (fa2 fa3 : Vec3)
    (w2 w3 : ℚ) (s2 s3 t2 t3 l2 l3 : ℤ) :
    (isWallBC bc2 = true → isWallBC bc3 = false →
      edgeAssignState gs bc2 bc3 stP2G3 stG2P3 fa2 fa3 w2 w3 s2 s3 t2 t3
          l2 l3 = gs ⟨stP2G3, "slipWall", fa2, w2, s2, t2, l2⟩ ∧
        ∀ bc3', isWallBC bc3' = false →
          edgeAssignState gs bc2 bc3' stP2G3 stG2P3 fa2 fa3 w2 w3 s2 s3 t2
              t3 l2 l3 =
            edgeAssignState gs bc2 bc3 stP2G3 stG2P3 fa2 fa3 w2 w3 s2 s3 t2
              t3 l2 l3) ∧
    (isWallBC bc2 = false → isWallBC bc3 = true →
      edgeAssignState gs bc2 bc3 stP2G3 stG2P3 fa2 fa3 w2 w3 s2 s3 t2 t3
          l2 l3 = gs ⟨stG2P3, "slipWall", fa3, w3, s3, t3, l3⟩ ∧
        ∀ bc2', isWallBC bc2' = false →
          edgeAssignState gs bc2' bc3 stP2G3 stG2P3 fa2 fa3 w2 w3 s2 s3 t2
              t3 l2 l3 =
            edgeAssignState gs bc2 bc3 stP2G3 stG2P3 fa2 fa3 w2 w3 s2 s3 t2
              t3 l2 l3) := by
  constructor
  · intro h2 h3
    refine ⟨edgeAssignState_wall2 gs bc2 bc3 stP2G3 stG2P3 fa2 fa3 w2 w3 s2
      s3 t2 t3 l2 l3 h2 h3, fun bc3' h3' => ?_⟩
    rw [edgeAssignState_wall2 gs bc2 bc3' stP2G3 stG2P3 fa2 fa3 w2 w3 s2 s3
      t2 t3 l2 l3 h2 h3', edgeAssignState_wall2 gs bc2 bc3 stP2G3 stG2P3
      fa2 fa3 w2 w3 s2 s3 t2 t3 l2 l3 h2 h3]
  · intro h2 h3
    refine ⟨edgeAssignState_wall3 gs bc2 bc3 stP2G3 stG2P3 fa2 fa3 w2 w3 s2
      s3 t2 t3 l2 l3 h2 h3, fun bc2' h2' => ?_⟩
    rw [edgeAssignState_wall3 gs bc2' bc3 stP2G3 stG2P3 fa2 fa3 w2 w3 s2 s3
      t2 t3 l2 l3 h2' h3, edgeAssignState_wall3 gs bc2 bc3 stP2G3 stG2P3
      fa2 fa3 w2 w3 s2 s3 t2 t3 l2 l3 h2 h3]

/-- Witness for `edgeGhost_singleWall_extension`: a `viscousWall` surface
meeting a `characteristic` surface. -/
theorem edgeGhost_singleWall_extension_witness :
    edgeAssignState (fun a => a.st) "viscousWall" "characteristic"
        ⟨1, [1, 0, 0, 0, 2]⟩ ⟨1, [3, 0, 0, 0, 4]⟩ ⟨1, 0, 0⟩ ⟨0, 1, 0⟩
        0 0 3 5 1 1 1 2 =
      (fun a : ghostCallArgs => a.st)
        ⟨⟨1, [1, 0, 0, 0, 2]⟩, "slipWall", ⟨1, 0, 0⟩, 0, 3, 1, 1⟩ ∧
    ∀ bc3', isWallBC bc3' = false →
      edgeAssignState (fun a => a.st) "viscousWall" bc3'
          ⟨1, [1, 0, 0, 0, 2]⟩ ⟨1, [3, 0, 0, 0, 4]⟩ ⟨1, 0, 0⟩ ⟨0, 1, 0⟩
          0 0 3 5 1 1 1 2 =
        edgeAssignState (fun a => a.st) "viscousWall" "characteristic"
          ⟨1, [1, 0, 0, 0, 2]⟩ ⟨1, [3, 0, 0, 0, 4]⟩ ⟨1, 0, 0⟩ ⟨0, 1, 0⟩
          0 0 3 5 1 1 1 2 :=
  (edgeGhost_singleWall_extension (fun a => a.st) "viscousWall"
      "characteristic" ⟨1, [1, 0, 0, 0, 2]⟩ ⟨1, [3, 0, 0, 0, 4]⟩
      ⟨1, 0, 0⟩ ⟨0, 1, 0⟩ 0 0 3 5 1 1 1 2).1 (by decide) (by decide)

/-! ### Supporting lemmas on the record layout and the per-cell folds -/

/-- Any record long enough to hold the four flow entries decomposes into
its species prefix, the four flow entries, and the turbulence suffix. -/
theorem varArray_decompose (p : varArray) (hlen : p.ns + 4 ≤ p.data.length) :
    p.data = p.speciesList ++
      [p.momentumX, p.momentumY, p.momentumZ, p.energy] ++ p.turb := by
  have h4 : (p.data.drop p.ns).take 4 =
      [p.momentumX, p.momentumY, p.momentumZ, p.energy] := by
    apply List.ext_getElem
    · simp
      omega
    · intro i h₁ h₂
      simp only [List.length_cons, List.length_nil] at h₂
      have hi4 : i < 4 := by omega
      have hb : p.ns + i < p.data.length := by omega
      rw [List.getElem_take, List.getElem_drop]
      interval_cases i
      · simp only [List.getElem_cons_zero]
        rw [varArray.momentumX, List.getD_eq_getElem p.data 0 (by omega)]
        simp
      · simp only [List.getElem_cons_succ, List.getElem_cons_zero]
        rw [varArray.momentumY, List.getD_eq_getElem p.data 0 (by omega)]
      · simp only [List.getElem_cons_succ, List.getElem_cons_zero]
        rw [varArray.momentumZ, List.getD_eq_getElem p.data 0 (by omega)]
      · simp only [List.getElem_cons_succ, List.getElem_cons_zero]
        rw [varArray.energy, List.getD_eq_getElem p.data 0 (by omega)]
  calc p.data = p.data.take p.ns ++ p.data.drop p.ns :=
        (List.take_append_drop p.ns p.data).symm
    _ = p.data.take p.ns ++ ((p.data.drop p.ns).take 4 ++
          p.data.drop (p.ns + 4)) := by
        rw [List.drop_take_append_drop]
    _ = p.speciesList ++
          [p.momentumX, p.momentumY, p.momentumZ, p.energy] ++ p.turb := by
        rw [h4, varArray.speciesList, varArray.turb, List.append_assoc]

/-- The accessors of an explicitly assembled record return its parts. -/
theorem mkRecord_fields (ns : ℕ) (sp : List ℚ) (m0 m1 m2 m3 : ℚ)
    (tl : List ℚ) (hsp : sp.length = ns) :
    ((⟨ns, sp ++ [m0, m1, m2, m3] ++ tl⟩ : varArray).speciesList = sp) ∧
    ((⟨ns, sp ++ [m0, m1, m2, m3] ++ tl⟩ : varArray).momentumX = m0) ∧
    ((⟨ns, sp ++ [m0, m1, m2, m3] ++ tl⟩ : varArray).momentumY = m1) ∧
    ((⟨ns, sp ++ [m0, m1, m2, m3] ++ tl⟩ : varArray).momentumZ = m2) ∧
    ((⟨ns, sp ++ [m0, m1, m2, m3] ++ tl⟩ : varArray).energy = m3) ∧
    ((⟨ns, sp ++ [m0, m1, m2, m3] ++ tl⟩ : varArray).turb = tl) := by
  refine ⟨?_, ?_, ?_, ?_, ?_, ?_⟩
  · simp only [varArray.speciesList, List.append_assoc]
    exact List.take_left' hsp
  · simp only [varArray.momentumX, List.append_assoc]
    rw [List.getD_append_right _ _ _ _ (le_of_eq hsp), hsp]
    simp
  · simp only [varArray.momentumY, List.append_assoc]
    rw [List.getD_append_right _ _ _ _ (by omega), hsp]
    simp
  · simp only [varArray.momentumZ, List.append_assoc]
    rw [List.getD_append_right _ _ _ _ (by omega), hsp]
    simp
  · simp only [varArray.energy, List.append_assoc]
    rw [List.getD_append_right _ _ _ _ (by omega), hsp]
    simp
  · simp only [varArray.turb]
    exact List.drop_left' (by simp [hsp])

/-- Summing the element-wise quotients of a list is dividing its sum. -/
theorem sum_map_div (l : List ℚ) (r : ℚ) :
    (l.map (· / r)).sum = l.sum / r := by
  induction l with
  | nil => simp
  | cons hd tl ih => simp [ih, add_div]

/-- `getD` after `drop` reindexes into the original list. -/
theorem getD_drop_eq (l : List ℚ) (n i : ℕ) :
    (l.drop n).getD i 0 = l.getD (n + i) 0 := by
  rw [List.getD, List.getD, List.get?_drop]

/-- One L-infinity scan step never lowers the recorded value. -/
theorem linfStep_val_le (r : List ℚ) (b i j k : ℤ) (lf : resid) (ll : ℕ) :
    lf.val ≤ (linfStep r b i j k lf ll).val := by
  unfold linfStep resid.Linf resid.UpdateMax
  split_ifs with h
  · exact le_of_lt h
  · exact le_refl _

/-- The L-infinity scan never lowers the recorded value. -/
theorem foldl_linfStep_val_le (r : List ℚ) (b i j k : ℤ) (L : List ℕ)
    (lf : resid) :
    lf.val ≤ (L.foldl (linfStep r b i j k) lf).val := by
  induction L generalizing lf with
  | nil => exact le_refl _
  | cons hd tl ih =>
    exact le_trans (linfStep_val_le r b i j k lf hd) (ih _)

/-- After the scan, the recorded value dominates every scanned residual
component. -/
theorem foldl_linfStep_mem_le (r : List ℚ) (b i j k : ℤ) (L : List ℕ)
    (lf : resid) (ll : ℕ) (h : ll ∈ L) :
    blockResidualComp r ll ≤ (L.foldl (linfStep r b i j k) lf).val := by
  induction L generalizing lf with
  | nil => cases h
  | cons hd tl ih =>
    rcases List.mem_cons.mp h with he | ht
    · subst he
      rw [List.foldl_cons]
      refine le_trans ?_ (foldl_linfStep_val_le r b i j k tl _)
      unfold linfStep resid.Linf resid.UpdateMax
      split_ifs with hc
      · exact le_refl _
      · exact not_lt.mp hc
    · rw [List.foldl_cons]
      exact ih _ ht

/-- The scan leaves the record unchanged when no component exceeds the
incoming value. -/
theorem foldl_linfStep_unchanged (r : List ℚ) (b i j k : ℤ) (L : List ℕ)
    (lf : resid) (h : ∀ ll ∈ L, blockResidualComp r ll ≤ lf.val) :
    L.foldl (linfStep r b i j k) lf = lf := by
  induction L with
  | nil => rfl
  | cons hd tl ih =>
    have hstep : linfStep r b i j k lf hd = lf := by
      unfold linfStep
      rw [if_neg]
      exact not_lt.mpr (h hd (List.mem_cons_self hd tl))
    rw [List.foldl_cons, hstep]
    exact ih (fun ll hm => h ll (List.mem_cons_of_mem hd hm))

/-- The scan either leaves the record unchanged or ends on the record of
one of the scanned components. -/
theorem foldl_linfStep_cases (r : List ℚ) (b i j k : ℤ) (L : List ℕ)
    (lf : resid) :
    L.foldl (linfStep r b i j k) lf = lf ∨
    ∃ ll ∈ L, L.foldl (linfStep r b i j k) lf =
      ⟨blockResidualComp r ll, b, i, j, k, (ll : ℤ) + 1⟩ := by
  induction L generalizing lf with
  | nil => exact Or.inl rfl
  | cons hd tl ih =>
    rw [List.foldl_cons]
    by_cases hc : blockResidualComp r hd > lf.Linf
    · have hstep : linfStep r b i j k lf hd =
          ⟨blockResidualComp r hd, b, i, j, k, (hd : ℤ) + 1⟩ := by
        unfold linfStep resid.UpdateMax
        rw [if_pos hc]
      rw [hstep]
      rcases ih ⟨blockResidualComp r hd, b, i, j, k, (hd : ℤ) + 1⟩ with
        h | ⟨ll, hm, he⟩
      · exact Or.inr ⟨hd, List.mem_cons_self hd tl, h⟩
      · exact Or.inr ⟨ll, List.mem_cons_of_mem hd hm, he⟩
    · have hstep : linfStep r b i j k lf hd = lf := by
        unfold linfStep
        rw [if_neg hc]
      rw [hstep]
      rcases ih lf with h | ⟨ll, hm, he⟩
      · exact Or.inl h
      · exact Or.inr ⟨ll, List.mem_cons_of_mem hd hm, he⟩

/-- The face loop is additive: the final residual of a cell is its initial
value plus the sum of the per-face contributions. -/
theorem foldl_invFlux_apply (flux area : ℤ → ℚ) (s e : ℤ) (L : List ℤ)
    (res : ℤ → ℚ) (c : ℤ) :
    (L.foldl (invFluxFaceUpdate flux area s e) res) c =
      res c + (L.map (fun ii => invFluxContrib flux area s e ii c)).sum := by
  induction L generalizing res with
  | nil => simp
  | cons hd tl ih =>
    rw [List.foldl_cons, ih, List.map_cons, List.sum_cons]
    show invFluxFaceUpdate flux area s e res hd c + _ = _
    rw [invFluxFaceUpdate]
    ring

/-- A sum over `range n` of a function vanishing away from one index is
the value at that index. -/
theorem sum_map_range_single (n t : ℕ) (f : ℕ → ℚ) (ht : t < n)
    (h0 : ∀ m, m < n → m ≠ t → f m = 0) :
    ((List.range n).map f).sum = f t := by
  induction n with
  | zero => omega
  | succ n ih =>
    rw [List.range_succ, List.map_append, List.sum_append]
    by_cases hc : t = n
    · subst hc
      have hz : ((List.range t).map f).sum = 0 := by
        apply List.sum_eq_zero
        intro x hx
        rw [List.mem_map] at hx
        obtain ⟨m, hm, hmx⟩ := hx
        rw [List.mem_range] at hm
        rw [← hmx]
        exact h0 m (by omega) (by omega)
      rw [hz]
      simp
    · have hfn : f n = 0 := h0 n (by omega) (by omega)
      rw [ih (by omega) (fun m hm hmt => h0 m (by omega) hmt)]
      simp [hfn]

/-! ### Remaining claim theorems -/

/-- Claim C2: for every physical cell processed by `UpdateBlock`, the L2
accumulator is incremented by `R·R` per equation, and the L-infinity
record only grows, ends up dominating every component `|R_k|`, is left
unchanged when no component exceeds the incoming value, and, when it did
change, records the (block, i, j, k, equation) location of a component
whose `|R_k|` equals the new value (equation stored one-based). -/
theorem updateBlock_norms_spec (r l2 : List ℚ) (blk ci cj ck : ℤ)
    (lf : resid) (hlen : l2.length = r.length) :
    (∀ idx, idx < r.length →
      (updateCellNorms r blk ci cj ck l2 lf).1.getD idx 0 =
        l2.getD idx 0 + r.getD idx 0 * r.getD idx 0) ∧
    lf.val ≤ (updateCellNorms r blk ci cj ck l2 lf).2.val ∧
    (∀ ll, ll < r.length →
      |r.getD ll 0| ≤ (updateCellNorms r blk ci cj ck l2 lf).2.val) ∧
    ((∀ ll, ll < r.length → |r.getD ll 0| ≤ lf.val) →
      (updateCellNorms r blk ci cj ck l2 lf).2 = lf) ∧
    ((updateCellNorms r blk ci cj ck l2 lf).2 ≠ lf →
      ∃ ll, ll < r.length ∧
        |r.getD ll 0| = (updateCellNorms r blk ci cj ck l2 lf).2.val ∧
        (updateCellNorms r blk ci cj ck l2 lf).2.blk = blk ∧
        (updateCellNorms r blk ci cj ck l2 lf).2.i = ci ∧
        (updateCellNorms r blk ci cj ck l2 lf).2.j = cj ∧
        (updateCellNorms r blk ci cj ck l2 lf).2.k = ck ∧
        (updateCellNorms r blk ci cj ck l2 lf).2.eqn = (ll : ℤ) + 1) := by
  refine ⟨?_, ?_, ?_, ?_, ?_⟩
  · intro idx hidx
    have hz : idx < (l2.zipWith (fun a x => a + x * x) r).length := by
      rw [List.length_zipWith]
      omega
    show (l2.zipWith (fun a x => a + x * x) r).getD idx 0 = _
    rw [List.getD_eq_getElem _ _ hz, List.getElem_zipWith,
      List.getD_eq_getElem _ _ (by omega), List.getD_eq_getElem _ _ (by omega)]
  · exact foldl_linfStep_val_le r blk ci cj ck _ lf
  · intro ll hll
    exact foldl_linfStep_mem_le r blk ci cj ck _ lf ll
      (List.mem_range.mpr hll)
  · intro hall
    exact foldl_linfStep_unchanged r blk ci cj ck _ lf
      (fun ll hm => hall ll (List.mem_range.mp hm))
  · intro hne
    rcases foldl_linfStep_cases r blk ci cj ck (List.range r.length) lf with
      h | ⟨ll, hm, he⟩
    · exact absurd h hne
    · have he2 : (updateCellNorms r blk ci cj ck l2 lf).2 =
          ⟨blockResidualComp r ll, blk, ci, cj, ck, (ll : ℤ) + 1⟩ := he
      rw [he2]
      exact ⟨ll, List.mem_range.mp hm, rfl, rfl, rfl, rfl, rfl, rfl⟩

/-- Witness for `updateBlock_norms_spec` at residual `[3, -4]`. -/
theorem updateBlock_norms_spec_witness :
    (⟨2, 0, 0, 0, 0, 0⟩ : resid).val ≤
      (updateCellNorms [3, -4] 7 1 2 3 [0, 0] ⟨2, 0, 0, 0, 0, 0⟩).2.val :=
  (updateBlock_norms_spec [3, -4] [0, 0] 7 1 2 3 ⟨2, 0, 0, 0, 0, 0⟩
    (by decide)).2.1

/-- Claim C3: on a line of cells, every physical face adds `F·A` to the
left cell's residual and subtracts it from the right cell's; each interior
cell therefore accumulates its two face contributions, while the lower and
upper boundary faces update only the single physical cell beside them. -/
theorem calcInvFlux_line_spec (flux area : ℤ → ℚ) (s e : ℤ) (res : ℤ → ℚ)
    (c : ℤ) (hse : s < e - 1) :
    (s ≤ c → c < e - 1 →
      calcInvFluxLine flux area s e res c =
        res c + flux (c + 1) * area (c + 1) - flux c * area c) ∧
    (invFluxFaceUpdate flux area s e res s s = res s - flux s * area s) ∧
    (∀ d, d ≠ s → invFluxFaceUpdate flux area s e res s d = res d) ∧
    (invFluxFaceUpdate flux area s e res (e - 1) (e - 2) =
      res (e - 2) + flux (e - 1) * area (e - 1)) ∧
    (∀ d, d ≠ e - 2 →
      invFluxFaceUpdate flux area s e res (e - 1) d = res d) := by
  refine ⟨?_, ?_, ?_, ?_, ?_⟩
  · intro hsc hce
    rw [calcInvFluxLine, foldl_invFlux_apply, faceList, List.map_map]
    have hsum : (((List.range (e - s).toNat).map
        ((fun ii => invFluxContrib flux area s e ii c) ∘
          (fun n : ℕ => s + (n : ℤ))))).sum =
        flux (c + 1) * area (c + 1) + -(flux c * area c) := by
      have hfun : ∀ m : ℕ, ((fun ii => invFluxContrib flux area s e ii c) ∘
          (fun n : ℕ => s + (n : ℤ))) m =
          (if (m : ℤ) = c + 1 - s then flux (c + 1) * area (c + 1) else 0) +
            (if (m : ℤ) = c - s then -(flux c * area c) else 0) := by
        intro m
        show invFluxContrib flux area s e (s + (m : ℤ)) c = _
        rw [invFluxContrib]
        by_cases h1 : (m : ℤ) = c + 1 - s
        · have he1 : s + (m : ℤ) = c + 1 := by omega
          rw [if_pos (by omega), if_neg (by omega), if_pos h1,
            if_neg (by omega), he1]
        · by_cases h2 : (m : ℤ) = c - s
          · have he2 : s + (m : ℤ) = c := by omega
            rw [if_neg (by omega), if_pos (by omega), if_neg h1, if_pos h2,
              he2]
          · rw [if_neg (by omega), if_neg (by omega), if_neg h1, if_neg h2]
      calc (((List.range (e - s).toNat).map
          ((fun ii => invFluxContrib flux area s e ii c) ∘
            (fun n : ℕ => s + (n : ℤ))))).sum
          = ((List.range (e - s).toNat).map (fun m : ℕ =>
              (if (m : ℤ) = c + 1 - s then flux (c + 1) * area (c + 1)
               else 0) +
                (if (m : ℤ) = c - s then -(flux c * area c) else 0))).sum := by
            rw [List.map_congr_left (fun m _ => hfun m)]
        _ = ((List.range (e - s).toNat).map (fun m : ℕ =>
              if (m : ℤ) = c + 1 - s then flux (c + 1) * area (c + 1)
              else 0)).sum +
            ((List.range (e - s).toNat).map (fun m : ℕ =>
              if (m : ℤ) = c - s then -(flux c * area c) else 0)).sum := by
            rw [List.sum_map_add]
        _ = flux (c + 1) * area (c + 1) + -(flux c * area c) := by
            rw [sum_map_range_single _ (c + 1 - s).toNat _ (by omega)
                (fun m hm hmt => by rw [if_neg (by omega)]),
              sum_map_range_single _ (c - s).toNat _ (by omega)
                (fun m hm hmt => by rw [if_neg (by omega)]),
              if_pos (by omega), if_pos (by omega)]
    rw [hsum]
    ring
  · rw [invFluxFaceUpdate, invFluxContrib, if_neg (by omega),
      if_pos ⟨by omega, rfl⟩]
    ring
  · intro d hd
    rw [invFluxFaceUpdate, invFluxContrib, if_neg (by omega),
      if_neg (by exact fun hcon => hd hcon.2)]
    ring
  · rw [invFluxFaceUpdate, invFluxContrib, if_pos ⟨by omega, by omega⟩,
      if_neg (by omega)]
    ring
  · intro d hd
    rw [invFluxFaceUpdate, invFluxContrib,
      if_neg (by exact fun hcon => hd (by omega)),
      if_neg (by omega)]
    ring

/-- Witness for `calcInvFlux_line_spec` on a three-cell line. -/
theorem calcInvFlux_line_spec_witness :
    calcInvFluxLine (fun _ => 1) (fun _ => 2) 0 3 (fun _ => 0) 0 =
      0 + 1 * 2 - 1 * 2 :=
  (calcInvFlux_line_spec (fun _ => 1) (fun _ => 2) 0 3 (fun _ => 0) 0
    (by decide)).1 (by decide) (by decide)

/-- Claim C7: for a physical primitive (species densities non-negative,
total density and pressure positive) whose equation of state and
turbulence limiter satisfy their contracts at that state, converting to
conserved variables and back reproduces the primitive exactly (hence
within any 1e-12 relative tolerance in every component). -/
theorem primToCons_roundTrip (p : varArray) (phys : physics)
    (hlen : p.ns + 4 ≤ p.data.length)
    (_hspec : ∀ q ∈ p.speciesList, 0 ≤ q)
    (hrho : 0 < p.rho)
    (_hP : 0 < p.energy)
    (heos : phys.pressFromEnergy p.speciesList (phys.internalEnergy p)
        ⟨p.momentumX, p.momentumY, p.momentumZ⟩ = p.energy)
    (hturb : phys.limitTurb p.turb = p.turb) :
    primitiveFromConserved (PrimToCons p phys) phys = p := by
  have hrne : p.rho ≠ 0 := ne_of_gt hrho
  have hsp : p.speciesList.length = p.ns := by
    simp only [varArray.speciesList, List.length_take]
    omega
  obtain ⟨f1, f2, f3, f4, f5, f6⟩ := mkRecord_fields p.ns p.speciesList
    (p.rho * p.momentumX) (p.rho * p.momentumY) (p.rho * p.momentumZ)
    (p.rho * phys.internalEnergy p) (p.turb.map (fun t => p.rho * t)) hsp
  have hcsp : (PrimToCons p phys).speciesList = p.speciesList := f1
  have hcrho : (PrimToCons p phys).rho = p.rho := by
    rw [varArray.rho, hcsp]
    rfl
  have hmx : (PrimToCons p phys).momentumX = p.rho * p.momentumX := f2
  have hmy : (PrimToCons p phys).momentumY = p.rho * p.momentumY := f3
  have hmz : (PrimToCons p phys).momentumZ = p.rho * p.momentumZ := f4
  have hen : (PrimToCons p phys).energy = p.rho * phys.internalEnergy p := f5
  have hturbc : (PrimToCons p phys).turb =
      p.turb.map (fun t => p.rho * t) := f6
  have hns : (PrimToCons p phys).ns = p.ns := rfl
  rw [primitiveFromConserved, hcsp, hcrho, hmx, hmy, hmz, hen, hturbc, hns]
  rw [mul_div_cancel_left₀ _ hrne, mul_div_cancel_left₀ _ hrne,
    mul_div_cancel_left₀ _ hrne, mul_div_cancel_left₀ _ hrne]
  rw [List.map_map]
  have hid : ((fun x => x / p.rho) ∘ fun t => p.rho * t) = id := by
    funext x
    simp only [Function.comp_apply, id_eq]
    exact mul_div_cancel_left₀ x hrne
  rw [hid, List.map_id, heos, hturb, ← varArray_decompose p hlen]

/-- Witness for `primToCons_roundTrip` on a one-species state with an
identity-contract physics model. -/
theorem primToCons_roundTrip_witness :
    primitiveFromConserved
        (PrimToCons ⟨1, [2, 3, 0, 0, 7]⟩
          ⟨fun q => q.energy, fun _ e _ => e, fun t => t⟩)
        ⟨fun q => q.energy, fun _ e _ => e, fun t => t⟩ =
      ⟨1, [2, 3, 0, 0, 7]⟩ :=
  primToCons_roundTrip ⟨1, [2, 3, 0, 0, 7]⟩
    ⟨fun q => q.energy, fun _ e _ => e, fun t => t⟩
    (by norm_num)
    (by norm_num [varArray.speciesList])
    (by norm_num [varArray.rho, varArray.speciesList])
    (by norm_num [varArray.energy, List.getD])
    rfl
    rfl

/-- Claim C4: the implicit update adds `du` to the cell's conserved state
and builds the new primitive so that every species density is
non-negative, the species densities sum to the updated mixture density
(the clamped mass fractions are renormalized to one), and the velocity
components are the updated momenta divided by the updated density. -/
theorem updatePrimWithCons_spec (state : varArray) (phys : physics)
    (du : List ℚ)
    (hlen : state.ns + 4 ≤ state.data.length)
    (hdu : du.length = state.data.length)
    (hrho : 0 < (consUpdateOf state phys du).rho)
    (htot : 0 < ((consUpdateOf state phys du).massFractions.map
        (fun frac => max frac 0)).sum) :
    (∀ q ∈ (UpdatePrimWithCons state phys du).speciesList, 0 ≤ q) ∧
    (UpdatePrimWithCons state phys du).rho =
      (consUpdateOf state phys du).rho ∧
    (UpdatePrimWithCons state phys du).momentumX =
      (consUpdateOf state phys du).momentumX /
        (consUpdateOf state phys du).rho ∧
    (UpdatePrimWithCons state phys du).momentumY =
      (consUpdateOf state phys du).momentumY /
        (consUpdateOf state phys du).rho ∧
    (UpdatePrimWithCons state phys du).momentumZ =
      (consUpdateOf state phys du).momentumZ /
        (consUpdateOf state phys du).rho := by
  set c := consUpdateOf state phys du with hc
  set rho := c.rho with hrhodef
  set mf := c.massFractions.map (fun frac => max frac 0) with hmf
  set total := mf.sum with htotal
  set mfn := mf.map (· / total) with hmfn
  set sp' := mfn.map (fun frac => rho * frac) with hsp'
  have hptc : (PrimToCons state phys).data.length = state.data.length := by
    simp only [PrimToCons, List.length_append, List.length_map,
      varArray.speciesList, varArray.turb, List.length_take,
      List.length_drop, List.length_cons, List.length_nil]
    omega
  have hclen : c.data.length = state.data.length := by
    rw [hc]
    show ((PrimToCons state phys).data.zipWith (· + ·) du).length = _
    rw [List.length_zipWith, hptc, hdu]
    omega
  have hcns : c.ns = state.ns := rfl
  have hmflen : mf.length = state.ns := by
    rw [hmf, List.length_map, varArray.massFractions, List.length_map,
      varArray.speciesList, List.length_take, hclen, hcns]
    omega
  have hsplen : sp'.length = state.ns := by
    rw [hsp', List.length_map, hmfn, List.length_map, hmflen]
  set adjusted : varArray := ⟨state.ns, sp' ++ c.data.drop state.ns⟩
    with hadj
  have hup : UpdatePrimWithCons state phys du =
      primitiveFromConserved adjusted phys := rfl
  have haspec : adjusted.speciesList = sp' := by
    rw [hadj]
    show (sp' ++ c.data.drop state.ns).take state.ns = sp'
    exact List.take_left' hsplen
  have htotne : total ≠ 0 := ne_of_gt htot
  have hmfnsum : mfn.sum = 1 := by
    rw [hmfn, sum_map_div, ← htotal, div_self htotne]
  have harho : adjusted.rho = rho := by
    rw [varArray.rho, haspec, hsp']
    rw [List.sum_map_mul_left mfn (fun x => x) rho]
    rw [List.map_id', hmfnsum, mul_one]
  have hamx : adjusted.momentumX = c.momentumX := by
    rw [varArray.momentumX, varArray.momentumX, hadj]
    show (sp' ++ c.data.drop state.ns).getD state.ns 0 = _
    rw [List.getD_append_right _ _ _ _ (le_of_eq hsplen), hsplen,
      Nat.sub_self, getD_drop_eq, Nat.add_zero, hcns]
  have hamy : adjusted.momentumY = c.momentumY := by
    rw [varArray.momentumY, varArray.momentumY, hadj]
    show (sp' ++ c.data.drop state.ns).getD (state.ns + 1) 0 = _
    rw [List.getD_append_right _ _ _ _ (by omega), hsplen]
    have h1 : state.ns + 1 - state.ns = 1 := by omega
    rw [h1, getD_drop_eq, hcns]
  have hamz : adjusted.momentumZ = c.momentumZ := by
    rw [varArray.momentumZ, varArray.momentumZ, hadj]
    show (sp' ++ c.data.drop state.ns).getD (state.ns + 2) 0 = _
    rw [List.getD_append_right _ _ _ _ (by omega), hsplen]
    have h2 : state.ns + 2 - state.ns = 2 := by omega
    rw [h2, getD_drop_eq, hcns]
  obtain ⟨g1, g2, g3, g4, g5, g6⟩ := mkRecord_fields adjusted.ns
    adjusted.speciesList (adjusted.momentumX / adjusted.rho)
    (adjusted.momentumY / adjusted.rho) (adjusted.momentumZ / adjusted.rho)
    (phys.pressFromEnergy adjusted.speciesList
      (adjusted.energy / adjusted.rho)
      ⟨adjusted.momentumX / adjusted.rho, adjusted.momentumY / adjusted.rho,
       adjusted.momentumZ / adjusted.rho⟩)
    (phys.limitTurb (adjusted.turb.map (· / adjusted.rho)))
    (by rw [haspec]; exact hsplen)
  have hr1 : (primitiveFromConserved adjusted phys).speciesList =
      adjusted.speciesList := g1
  have hr2 : (primitiveFromConserved adjusted phys).momentumX =
      adjusted.momentumX / adjusted.rho := g2
  have hr3 : (primitiveFromConserved adjusted phys).momentumY =
      adjusted.momentumY / adjusted.rho := g3
  have hr4 : (primitiveFromConserved adjusted phys).momentumZ =
      adjusted.momentumZ / adjusted.rho := g4
  refine ⟨?_, ?_, ?_, ?_, ?_⟩
  · intro q hq
    rw [hup, hr1, haspec, hsp', hmfn] at hq
    rw [List.map_map] at hq
    obtain ⟨x, hxmem, hxq⟩ := List.mem_map.mp hq
    rw [hmf] at hxmem
    obtain ⟨y, _, hyx⟩ := List.mem_map.mp hxmem
    rw [← hxq]
    show 0 ≤ rho * (x / total)
    have hx0 : 0 ≤ x := by
      rw [← hyx]
      exact le_max_right y 0
    exact mul_nonneg (le_of_lt hrho) (div_nonneg hx0 (le_of_lt htot))
  · rw [hup, varArray.rho, hr1, ← varArray.rho, harho]
  · rw [hup, hr2, hamx, harho]
  · rw [hup, hr3, hamy, harho]
  · rw [hup, hr4, hamz, harho]

/-- Witness for `updatePrimWithCons_spec`: a two-species state whose
update drives one species density negative, exercising the clamp. -/
theorem updatePrimWithCons_spec_witness :
    (UpdatePrimWithCons ⟨2, [1, 1, 3, 0, 0, 10]⟩
        ⟨fun q => q.energy, fun _ e _ => e, fun t => t⟩
        [-2, 3, 0, 0, 0, 0]).rho =
      (consUpdateOf ⟨2, [1, 1, 3, 0, 0, 10]⟩
        ⟨fun q => q.energy, fun _ e _ => e, fun t => t⟩
        [-2, 3, 0, 0, 0, 0]).rho :=
  (updatePrimWithCons_spec ⟨2, [1, 1, 3, 0, 0, 10]⟩
    ⟨fun q => q.energy, fun _ e _ => e, fun t => t⟩ [-2, 3, 0, 0, 0, 0]
    (by norm_num)
    (by norm_num)
    (by norm_num [consUpdateOf, PrimToCons, varArray.rho,
      varArray.speciesList, varArray.turb, varArray.momentumX,
      varArray.momentumY, varArray.momentumZ, varArray.energy, List.getD])
    (by norm_num [consUpdateOf, PrimToCons, varArray.rho,
      varArray.massFractions, varArray.speciesList, varArray.turb,
      varArray.momentumX, varArray.momentumY, varArray.momentumZ,
      varArray.energy, List.getD])).2.1

end Aither
